import Mathlib

/-!
Verification of the AI-controller core of the interview-prep backend
(`server/controllers/aiController.js`): the Gemini response text extractor
`getGeminiText`, the two-attempt JSON recovery `tryParseJSON`, the derived
explanation fallback, and the two HTTP handlers `generateInterviewQuestions`
and `generateConceptExplanation`.

JavaScript values produced by `JSON.parse` are modelled by the mutual
inductive `Json`/`JsonArr`/`JsonObj`; `JSON.parse` itself is modelled by the
executable recursive-descent parser `parseJson` (numbers keep their source
lexeme; JavaScript's normalisation of number rendering is not needed by any
statement proved here).  JavaScript truthiness, `typeof`, `JSON.stringify`
and string coercion are modelled explicitly.  The handlers are modelled as
pure functions from the request fields, the provider outcome and the
database state to an HTTP result carrying a trace of external calls.
-/

/-- The opening brace character, written numerically. -/
def braceOpen : Char := Char.ofNat 123

/-- The closing brace character, written numerically. -/
def braceClose : Char := Char.ofNat 125

mutual

/-- A JavaScript value as produced by `JSON.parse`: null, boolean, number
(kept as its source lexeme), string, array or object. -/
inductive Json where
  | null : Json
  | bool (b : Bool) : Json
  | num (lexeme : String) : Json
  | str (s : String) : Json
  | arr (elems : JsonArr) : Json
  | obj (fields : JsonObj) : Json

/-- A JavaScript array of `Json` values. -/
inductive JsonArr where
  | nil : JsonArr
  | cons (hd : Json) (tl : JsonArr) : JsonArr

/-- The fields of a JavaScript object, in insertion order with unique keys. -/
inductive JsonObj where
  | nil : JsonObj
  | cons (key : String) (val : Json) (tl : JsonObj) : JsonObj

end

/-- Property insertion with JavaScript object semantics: an existing key
keeps its position and gets the new value, a new key is appended. -/
def objInsert : JsonObj → String → Json → JsonObj
  | .nil, k, v => .cons k v .nil
  | .cons k0 v0 tl, k, v =>
    if k0 == k then .cons k0 v tl else .cons k0 v0 (objInsert tl k v)

/-- Property lookup on an object (keys are unique by construction). -/
def getField : JsonObj → String → Option Json
  | .nil, _ => none
  | .cons k v tl, key => if k == key then some v else getField tl key

mutual

/-- Structural equality of `Json` values (used to model id comparison on
database keys). -/
def jsonEq : Json → Json → Bool
  | .null, .null => true
  | .bool a, .bool b => a == b
  | .num a, .num b => a == b
  | .str a, .str b => a == b
  | .arr a, .arr b => jsonArrEq a b
  | .obj a, .obj b => jsonObjEq a b
  | _, _ => false

/-- Structural equality of `JsonArr` values. -/
def jsonArrEq : JsonArr → JsonArr → Bool
  | .nil, .nil => true
  | .cons a as, .cons b bs => jsonEq a b && jsonArrEq as bs
  | _, _ => false

/-- Structural equality of `JsonObj` values. -/
def jsonObjEq : JsonObj → JsonObj → Bool
  | .nil, .nil => true
  | .cons k v tl, .cons k2 v2 tl2 => k == k2 && jsonEq v v2 && jsonObjEq tl tl2
  | _, _ => false

end

/-- Whether a JSON number lexeme denotes a nonzero number: some digit of the
mantissa (the part before any exponent marker) is 1–9. -/
def numMantissaNonzero (lexeme : String) : Bool :=
  (lexeme.toList.takeWhile (fun c => !(c == 'e' || c == 'E'))).any
    (fun c => '1' ≤ c && c ≤ '9')

/-- JavaScript truthiness of a parsed JSON value: null, false, zero numbers
and the empty string are falsy; arrays and objects are always truthy. -/
def Json.truthy : Json → Bool
  | .null => false
  | .bool b => b
  | .num lexeme => numMantissaNonzero lexeme
  | .str s => !(s == "")
  | .arr _ => true
  | .obj _ => true

/-- One hexadecimal digit (lower case), used by the string escaper. -/
def hexDigit (n : Nat) : String :=
  String.singleton (Char.ofNat (if n < 10 then 48 + n else 87 + n))

/-- Escaping applied by `JSON.stringify` to a single character inside a string. -/
def escapeChar (c : Char) : String :=
  if c = '\"' then "\\\""
  else if c = '\\' then "\\\\"
  else if c = '\n' then "\\n"
  else if c = '\r' then "\\r"
  else if c = '\t' then "\\t"
  else if c = Char.ofNat 8 then "\\b"
  else if c = Char.ofNat 12 then "\\f"
  else if c.toNat < 32 then "\\u00" ++ hexDigit (c.toNat / 16) ++ hexDigit (c.toNat % 16)
  else String.singleton c

/-- Rendering of a string by `JSON.stringify`, with quotes and escapes. -/
def stringifyStr (s : String) : String :=
  "\"" ++ String.join (s.toList.map escapeChar) ++ "\""

mutual

/-- Model of `JSON.stringify` on a parsed value (numbers render as their
source lexeme). -/
def stringifyJson : Json → String
  | .null => "null"
  | .bool true => "true"
  | .bool false => "false"
  | .num lexeme => lexeme
  | .str s => stringifyStr s
  | .arr xs => "[" ++ stringifyArr xs ++ "]"
  | .obj fs => "\x7b" ++ stringifyObj fs ++ "\x7d"

/-- Comma-joined `JSON.stringify` rendering of array elements. -/
def stringifyArr : JsonArr → String
  | .nil => ""
  | .cons v JsonArr.nil => stringifyJson v
  | .cons v (JsonArr.cons w tl) =>
    stringifyJson v ++ "," ++ stringifyArr (JsonArr.cons w tl)

/-- Comma-joined `JSON.stringify` rendering of object fields. -/
def stringifyObj : JsonObj → String
  | .nil => ""
  | .cons k v JsonObj.nil => stringifyStr k ++ ":" ++ stringifyJson v
  | .cons k v (JsonObj.cons k2 w tl) =>
    stringifyStr k ++ ":" ++ stringifyJson v ++ "," ++ stringifyObj (JsonObj.cons k2 w tl)

end

mutual

/-- JavaScript string coercion `String(v)` of a parsed JSON value, as applied
by a template literal: strings stay themselves, arrays join their elements
with commas, objects render as "[object Object]". -/
def jsToString : Json → String
  | .null => "null"
  | .bool true => "true"
  | .bool false => "false"
  | .num lexeme => lexeme
  | .str s => s
  | .arr xs => arrJoin xs
  | .obj _ => "[object Object]"

/-- Model of `Array.prototype.toString`: elements joined with commas, null elements
rendering as the empty string. -/
def arrJoin : JsonArr → String
  | .nil => ""
  | .cons Json.null JsonArr.nil => ""
  | .cons v JsonArr.nil => jsToString v
  | .cons Json.null (JsonArr.cons w tl) => "," ++ arrJoin (JsonArr.cons w tl)
  | .cons v (JsonArr.cons w tl) => jsToString v ++ "," ++ arrJoin (JsonArr.cons w tl)

end

/-- JSON whitespace accepted by `JSON.parse`: space, tab, line feed,
carriage return. -/
def isJsonWs (c : Char) : Bool :=
  (c == ' ') || (c == '\t') || (c == '\n') || (c == '\r')

/-- Skip JSON whitespace. -/
def skipWs (cs : List Char) : List Char :=
  cs.dropWhile isJsonWs

/-- Value of one hexadecimal digit, if any. -/
def hexVal (c : Char) : Option Nat :=
  if '0' ≤ c ∧ c ≤ '9' then some (c.toNat - 48)
  else if 'a' ≤ c ∧ c ≤ 'f' then some (c.toNat - 87)
  else if 'A' ≤ c ∧ c ≤ 'F' then some (c.toNat - 55)
  else none

/-- Parse the body of a JSON string after the opening quote, handling
escapes; returns the string and the input after the closing quote. -/
def parseStrGo (cs : List Char) (acc : List Char) : Except String (String × List Char) :=
  match cs with
  | [] => .error ("Unterminated string in JSON")
  | c :: rest =>
    if c = '\"' then .ok (String.mk acc.reverse, rest)
    else if c = '\\' then
      match rest with
      | [] => .error ("Unterminated string in JSON")
      | e :: rest2 =>
        if e = '\"' then parseStrGo rest2 ('\"' :: acc)
        else if e = '\\' then parseStrGo rest2 ('\\' :: acc)
        else if e = '/' then parseStrGo rest2 ('/' :: acc)
        else if e = 'b' then parseStrGo rest2 (Char.ofNat 8 :: acc)
        else if e = 'f' then parseStrGo rest2 (Char.ofNat 12 :: acc)
        else if e = 'n' then parseStrGo rest2 ('\n' :: acc)
        else if e = 'r' then parseStrGo rest2 ('\r' :: acc)
        else if e = 't' then parseStrGo rest2 ('\t' :: acc)
        else if e = 'u' then
          match rest2 with
          | h1 :: h2 :: h3 :: h4 :: rest3 =>
            match hexVal h1, hexVal h2, hexVal h3, hexVal h4 with
            | some a, some b, some c3, some d =>
              parseStrGo rest3 (Char.ofNat (((a * 16 + b) * 16 + c3) * 16 + d) :: acc)
            | _, _, _, _ => .error ("Bad Unicode escape in JSON")
          | _ => .error ("Bad Unicode escape in JSON")
        else .error ("Bad escaped character in JSON string")
    else if c.toNat < 32 then .error ("Bad control character in JSON string")
    else parseStrGo rest (c :: acc)

/-- Parse an optional exponent part of a JSON number; `pre` is the lexeme so
far. -/
def parseNumExp (pre : List Char) (cs : List Char) : Except String (String × List Char) :=
  match cs with
  | c :: r2 =>
    if c = 'e' ∨ c = 'E' then
      let sr : List Char × List Char :=
        match r2 with
        | s :: r3 => if s = '+' ∨ s = '-' then ([s], r3) else ([], r2)
        | [] => ([], r2)
      match (sr.2).takeWhile Char.isDigit with
      | [] => .error ("Exponent part is missing a number in JSON")
      | ds => .ok (String.mk (pre ++ c :: (sr.1 ++ ds)), (sr.2).dropWhile Char.isDigit)
    else .ok (String.mk pre, cs)
  | [] => .ok (String.mk pre, cs)

/-- Parse an optional fractional part of a JSON number, then the exponent. -/
def parseNumFrac (pre : List Char) (cs : List Char) : Except String (String × List Char) :=
  match cs with
  | '.' :: r2 =>
    match r2.takeWhile Char.isDigit with
    | [] => .error ("Unterminated fractional number in JSON")
    | ds => parseNumExp (pre ++ '.' :: ds) (r2.dropWhile Char.isDigit)
  | _ => parseNumExp pre cs

/-- Parse a JSON number starting at `cs`, returning its lexeme. -/
def parseNum (cs : List Char) : Except String (String × List Char) :=
  let negSplit : List Char × List Char :=
    match cs with
    | c :: rest => if c = '-' then (['-'], rest) else ([], cs)
    | [] => ([], cs)
  match negSplit.2 with
  | [] => .error ("No number after minus sign in JSON")
  | c :: rest =>
    if c = '0' then parseNumFrac (negSplit.1 ++ ['0']) rest
    else if c.isDigit then
      parseNumFrac (negSplit.1 ++ c :: rest.takeWhile Char.isDigit)
        (rest.dropWhile Char.isDigit)
    else .error ("No number after minus sign in JSON")

/-- Expect a literal keyword (`true`, `false`, `null`). -/
def expectLit (cs : List Char) (lit : String) (v : Json) : Except String (Json × List Char) :=
  if lit.toList.isPrefixOf cs then .ok (v, cs.drop lit.toList.length)
  else
    match cs with
    | c :: _ => .error ("Unexpected token " ++ String.singleton c)
    | [] => .error ("Unexpected end of JSON input")

mutual

/-- Parse one JSON value (fuelled recursive descent; the top level supplies
ample fuel, so exhaustion is unreachable for inputs it accepts). -/
def parseVal : Nat → List Char → Except String (Json × List Char)
  | 0, _ => .error ("JSON nesting too deep")
  | Nat.succ fuel, cs =>
    match skipWs cs with
    | [] => .error ("Unexpected end of JSON input")
    | c :: rest =>
      if c = braceOpen then parseObjBody fuel rest
      else if c = '[' then parseArrBody fuel rest
      else if c = '\"' then
        match parseStrGo rest [] with
        | .error e => .error e
        | .ok (s, r) => .ok (Json.str s, r)
      else if c = 't' then expectLit (c :: rest) ("true") (Json.bool true)
      else if c = 'f' then expectLit (c :: rest) ("false") (Json.bool false)
      else if c = 'n' then expectLit (c :: rest) ("null") Json.null
      else if c = '-' ∨ c.isDigit then
        match parseNum (c :: rest) with
        | .error e => .error e
        | .ok (lexeme, r) => .ok (Json.num lexeme, r)
      else .error ("Unexpected token " ++ String.singleton c)

/-- Parse an array body after the opening bracket. -/
def parseArrBody : Nat → List Char → Except String (Json × List Char)
  | 0, _ => .error ("JSON nesting too deep")
  | Nat.succ fuel, cs =>
    match skipWs cs with
    | ']' :: rest => .ok (Json.arr JsonArr.nil, rest)
    | _ =>
      match parseArrElems fuel cs with
      | .error e => .error e
      | .ok (xs, r) => .ok (Json.arr xs, r)

/-- Parse one or more comma-separated array elements up to the closing
bracket. -/
def parseArrElems : Nat → List Char → Except String (JsonArr × List Char)
  | 0, _ => .error ("JSON nesting too deep")
  | Nat.succ fuel, cs =>
    match parseVal fuel cs with
    | .error e => .error e
    | .ok (v, r) =>
      match skipWs r with
      | ',' :: r2 =>
        match parseArrElems fuel r2 with
        | .error e => .error e
        | .ok (tl, r3) => .ok (JsonArr.cons v tl, r3)
      | ']' :: r2 => .ok (JsonArr.cons v JsonArr.nil, r2)
      | c :: _ => .error ("Unexpected token " ++ String.singleton c)
      | [] => .error ("Unexpected end of JSON input")

/-- Parse an object body after the opening brace. -/
def parseObjBody : Nat → List Char → Except String (Json × List Char)
  | 0, _ => .error ("JSON nesting too deep")
  | Nat.succ fuel, cs =>
    match skipWs cs with
    | c :: rest =>
      if c = braceClose then .ok (Json.obj JsonObj.nil, rest)
      else parseObjFields fuel (c :: rest) JsonObj.nil
    | [] => .error ("Unexpected end of JSON input")

/-- Parse one or more comma-separated object members up to the closing
brace, inserting with JavaScript duplicate-key semantics. -/
def parseObjFields : Nat → List Char → JsonObj → Except String (Json × List Char)
  | 0, _, _ => .error ("JSON nesting too deep")
  | Nat.succ fuel, cs, acc =>
    match skipWs cs with
    | c :: rest =>
      if c = '\"' then
        match parseStrGo rest [] with
        | .error e => .error e
        | .ok (k, r1) =>
          match skipWs r1 with
          | ':' :: r2 =>
            match parseVal fuel r2 with
            | .error e => .error e
            | .ok (v, r3) =>
              match skipWs r3 with
              | ',' :: r4 => parseObjFields fuel r4 (objInsert acc k v)
              | c2 :: r4 =>
                if c2 = braceClose then .ok (Json.obj (objInsert acc k v), r4)
                else .error ("Unexpected token " ++ String.singleton c2)
              | [] => .error ("Unexpected end of JSON input")
          | c2 :: _ => .error ("Unexpected token " ++ String.singleton c2)
          | [] => .error ("Unexpected end of JSON input")
      else .error ("Unexpected token " ++ String.singleton c)
    | [] => .error ("Unexpected end of JSON input")

end

/-- Model of `JSON.parse`: parse one value, then require only whitespace to
remain. -/
def parseJson (s : String) : Except String Json :=
  match parseVal (4 * s.toList.length + 4) s.toList with
  | .error e => .error e
  | .ok (v, rest) =>
    match skipWs rest with
    | [] => .ok v
    | c :: _ => .error ("Unexpected non-whitespace character after JSON: " ++ String.singleton c)

/-- The whitespace class of the JavaScript regex `\s` and of
`String.prototype.trim`: ASCII whitespace, NBSP, the Unicode space
separators, the line separators and the BOM. -/
def isJsSpace (c : Char) : Bool :=
  (c == ' ') || (c == '\t') || (c == '\n') || (c == '\r') ||
  (c.toNat == 11) || (c.toNat == 12) || (c.toNat == 160) || (c.toNat == 5760) ||
  (8192 ≤ c.toNat && c.toNat ≤ 8202) || (c.toNat == 8232) || (c.toNat == 8233) ||
  (c.toNat == 8239) || (c.toNat == 8287) || (c.toNat == 12288) || (c.toNat == 65279)

/-- The replace of `/^```json\s*/` with the empty string: the leading fence
is removed only when it is literally three backticks followed by `json`,
together with the regex whitespace after it. -/
def stripLead (cs : List Char) : List Char :=
  if ("```json".toList).isPrefixOf cs then (cs.drop 7).dropWhile isJsSpace else cs

/-- The replace of `/```$/` with the empty string: three backticks are
removed only at the very end of the string. -/
def stripTrail (cs : List Char) : List Char :=
  if ("```".toList).isSuffixOf cs then (cs.reverse.drop 3).reverse else cs

/-- Model of `String.prototype.trim`: whitespace removed from both ends. -/
def trimBoth (cs : List Char) : List Char :=
  ((cs.dropWhile isJsSpace).reverse.dropWhile isJsSpace).reverse

/-- The `cleaned` text of `tryParseJSON`: strip the `json` code fence
markers, then trim. -/
def cleanFenced (text : String) : String :=
  String.mk (trimBoth (stripTrail (stripLead text.toList)))

/-- The record `{ json, error }` returned by `tryParseJSON`; the JavaScript
`null` of the failure case is modelled by `none`. -/
structure ParseOutcome where
  json : Option Json
  error : Option String

/-- Model of the source's `tryParseJSON`: strict parse first, then parse the
fence-stripped and trimmed text, and on double failure report the second
error. -/
def tryParseJSON (text : String) : ParseOutcome :=
  match parseJson text with
  | .ok v => { json := some v, error := none }
  | .error _ =>
    match parseJson (cleanFenced text) with
    | .ok v => { json := some v, error := none }
    | .error e => { json := none, error := some e }

/-- The function `tryParseJSON` instrumented with a flag recording whether the fallback
(second) parse attempt ran; the fallback runs exactly when the strict parse
threw. -/
def tryParseJSONTrace (text : String) : ParseOutcome × Bool :=
  match parseJson text with
  | .ok v => ({ json := some v, error := none }, false)
  | .error _ =>
    match parseJson (cleanFenced text) with
    | .ok v => ({ json := some v, error := none }, true)
    | .error e => ({ json := none, error := some e }, true)

/-- One part of a Gemini candidate's content; the `text` field may be
absent. -/
structure GeminiPart where
  text : Option String

/-- The content of a Gemini candidate; the `parts` array may be absent. -/
structure GeminiContent where
  parts : Option (List GeminiPart)

/-- One Gemini candidate; the `content` field may be absent. -/
structure GeminiCandidate where
  content : Option GeminiContent

/-- A Gemini provider response object; the `candidates` array may be
absent.  A `null`/absent response itself is modelled by `Option` at the
use site. -/
structure GeminiResponse where
  candidates : Option (List GeminiCandidate)

/-- Model of the source's `getGeminiText`: return
`response.candidates[0].content.parts[0].text` when the whole optional
chain is present and the text is truthy (non-empty), else `null`. -/
def getGeminiText (response : Option GeminiResponse) : Option String :=
  match response with
  | none => none
  | some r =>
    match r.candidates with
    | none => none
    | some cands =>
      match cands.head? with
      | none => none
      | some cand =>
        match cand.content with
        | none => none
        | some content =>
          match content.parts with
          | none => none
          | some parts =>
            match parts.head? with
            | none => none
            | some part =>
              match part.text with
              | none => none
              | some t => if t = "" then none else some t

/-- The `json?.explanation` access of the source: a property lookup when the
parsed value is an object, `undefined` (here `none`) otherwise — including
when `json` is the `null` of a failed parse. -/
def explanationField : Option Json → Option Json
  | some (Json.obj fs) => getField fs ("explanation")
  | _ => none

/-- The test `typeof json === "object"` of the source: true for objects and
arrays, and also for JavaScript `null` — hence for a failed parse. -/
def typeofObject : Option Json → Bool
  | none => true
  | some Json.null => true
  | some (Json.obj _) => true
  | some (Json.arr _) => true
  | some _ => false

/-- Model of `JSON.stringify(json)` where `json` may be the `null` of a failed
parse: `JSON.stringify(null)` is the string "null". -/
def jsonStringifyOpt : Option Json → String
  | none => "null"
  | some v => stringifyJson v

/-- The explanation derivation of `generateConceptExplanation` (source lines
106–111): a truthy `json?.explanation` wins (coerced to a string by the
template literal), else the stringified value when `typeof json` is
"object", else the raw extracted text. -/
def deriveExplanation (json : Option Json) (text : String) : String :=
  match explanationField json with
  | some fv =>
    if fv.truthy then jsToString fv
    else if typeofObject json then jsonStringifyOpt json else text
  | none =>
    if typeofObject json then jsonStringifyOpt json else text

/-- Truthiness of a possibly-absent request-body field (`undefined` is
falsy). -/
def optTruthy : Option Json → Bool
  | none => false
  | some v => v.truthy

/-- External calls a handler performs, in order: the Gemini generation call,
the `findById` lookup, the `findByIdAndUpdate` write. -/
inductive AIEvent where
  | providerCall : AIEvent
  | dbFindById : AIEvent
  | dbUpdate : AIEvent
deriving DecidableEq

/-- A persisted question record; only the `answer` field is touched by this
core.  An absent or null answer is `none`. -/
structure QuestionRec where
  answer : Option String
deriving DecidableEq

/-- The JSON body a handler responds with. -/
inductive RespBody where
  | message (m : String) : RespBody
  | messageError (m : String) (e : String) : RespBody
  | invalidJson (m : String) (raw : String) (err : Option String) : RespBody
  | questions (j : Json) : RespBody
  | questionRec (q : Option QuestionRec) : RespBody

/-- A handler outcome: HTTP status, response body, and the trace of external
calls in the order they were made. -/
structure HttpResult where
  status : Nat
  body : RespBody
  events : List AIEvent

/-- Model of `Question.findById`: first record whose key equals the given id. -/
def dbFind (db : List (Json × QuestionRec)) (k : Json) : Option QuestionRec :=
  match db with
  | [] => none
  | (k0, r) :: tl => if jsonEq k0 k then some r else dbFind tl k

/-- Model of the update `Question.findByIdAndUpdate` with option `new: true`: set the
answer of the first matching record, returning the new state and the
updated record. -/
def dbUpdateAnswer (db : List (Json × QuestionRec)) (k : Json) (newAns : String) :
    List (Json × QuestionRec) × Option QuestionRec :=
  match db with
  | [] => ([], none)
  | (k0, r) :: tl =>
    if jsonEq k0 k then
      ((k0, { r with answer := some newAns }) :: tl, some { r with answer := some newAns })
    else
      ((k0, r) :: (dbUpdateAnswer tl k newAns).1, (dbUpdateAnswer tl k newAns).2)

/-- Model of `existingQuestion.answer || ""`: the answer when it is truthy (a
non-empty string), else the empty string. -/
def jsOrElseEmpty : Option String → String
  | some a => if a = "" then "" else a
  | none => ""

/-- The new answer computed on source lines 118–120: the prior answer (or
the empty string) followed by the literal separator and the explanation. -/
def appendExplanationAnswer (prior : Option String) (explanation : String) : String :=
  jsOrElseEmpty prior ++ "\n\nExplanation:\n" ++ explanation

/-- Model of the handler `generateInterviewQuestions`.  The four body fields
are `Option Json` (`none` = absent); `provider` is the outcome of the
Gemini call (`.error` = a thrown exception caught by the handler's
`catch`). -/
def generateInterviewQuestions (role experience topicsToFocus numberOfQuestions : Option Json)
    (provider : Except String (Option GeminiResponse)) : HttpResult :=
  if optTruthy role && optTruthy experience && optTruthy topicsToFocus &&
      optTruthy numberOfQuestions then
    match provider with
    | .error e => ⟨500, .messageError ("Failed to generate questions") e, [.providerCall]⟩
    | .ok resp =>
      match getGeminiText resp with
      | none => ⟨500, .message ("No response from Gemini"), [.providerCall]⟩
      | some text =>
        match (tryParseJSON text).json with
        | some v =>
          if v.truthy then ⟨200, .questions v, [.providerCall]⟩
          else ⟨500, .invalidJson ("Gemini returned invalid JSON") text (tryParseJSON text).error,
            [.providerCall]⟩
        | none =>
          ⟨500, .invalidJson ("Gemini returned invalid JSON") text (tryParseJSON text).error,
            [.providerCall]⟩
  else ⟨400, .message ("Missing required fields"), []⟩

/-- Model of the handler `generateConceptExplanation`.  Returns the HTTP
result and the database state after the request. -/
def generateConceptExplanation (questionId question : Option Json)
    (provider : Except String (Option GeminiResponse))
    (db : List (Json × QuestionRec)) : HttpResult × List (Json × QuestionRec) :=
  match questionId, question with
  | some qid, some q =>
    if qid.truthy && q.truthy then
      match provider with
      | .error e =>
        (⟨500, .messageError ("Failed to generate explanation") e, [.providerCall]⟩, db)
      | .ok resp =>
        match getGeminiText resp with
        | none => (⟨500, .message ("No response from Gemini"), [.providerCall]⟩, db)
        | some text =>
          match dbFind db qid with
          | none =>
            (⟨404, .message ("Question not found"), [.providerCall, .dbFindById]⟩, db)
          | some existing =>
            (⟨200,
              .questionRec (dbUpdateAnswer db qid
                (appendExplanationAnswer existing.answer
                  (deriveExplanation (tryParseJSON text).json text))).2,
              [.providerCall, .dbFindById, .dbUpdate]⟩,
             (dbUpdateAnswer db qid
               (appendExplanationAnswer existing.answer
                 (deriveExplanation (tryParseJSON text).json text))).1)
    else (⟨400, .message ("Missing required fields"), []⟩, db)
  | _, _ => (⟨400, .message ("Missing required fields"), []⟩, db)

/-- Whether an `Except` result is a success. -/
def exceptOk (r : Except String Json) : Bool :=
  match r with
  | .ok _ => true
  | .error _ => false

lemma dropWhile_append_all {p : Char → Bool} :
    ∀ (w rest : List Char), (∀ c ∈ w, p c = true) →
      (w ++ rest).dropWhile p = rest.dropWhile p := by
  intro w
  induction w with
  | nil => intro rest _; simp
  | cons a as ih =>
    intro rest h
    simp only [List.cons_append, List.dropWhile_cons, h a (List.mem_cons_self a as), if_true]
    exact ih rest (fun c hc => h c (List.mem_cons_of_mem a hc))

lemma dropWhile_cons_false {p : Char → Bool} {c : Char} (l : List Char)
    (h : p c = false) : (c :: l).dropWhile p = c :: l := by
  simp [List.dropWhile_cons, h]

lemma dbUpdateAnswer_found (qid : Json) (na : String) :
    ∀ (db : List (Json × QuestionRec)) (rec : QuestionRec), dbFind db qid = some rec →
      (dbUpdateAnswer db qid na).2 = some { rec with answer := some na } ∧
      dbFind (dbUpdateAnswer db qid na).1 qid = some { rec with answer := some na } := by
  intro db
  induction db with
  | nil => intro rec h; simp [dbFind] at h
  | cons hd tl ih =>
    intro rec h
    obtain ⟨k0, r⟩ := hd
    by_cases hk : jsonEq k0 qid = true
    · simp only [dbFind, hk, if_true, Option.some.injEq] at h
      subst h
      simp [dbUpdateAnswer, dbFind, hk]
    · have hk' : jsonEq k0 qid = false := by
        revert hk; cases jsonEq k0 qid <;> simp
      simp only [dbFind, hk', Bool.false_eq_true, if_false] at h
      simp [dbUpdateAnswer, dbFind, hk', ih rec h]

/-- C5: for every text string that is valid JSON, JsonRecovery returns the
parsed value on the first attempt, with no error, and the fence-stripping
fallback is not applied. -/
theorem C5_strict_parse_first_attempt (text : String) (v : Json)
    (h : parseJson text = Except.ok v) :
    tryParseJSON text = { json := some v, error := none } ∧
    (tryParseJSONTrace text).2 = false := by
  constructor
  · simp [tryParseJSON, h]
  · simp [tryParseJSONTrace, h]

theorem C5_strict_parse_first_attempt_witness :
    tryParseJSON ("[1,2]") =
      { json := some (Json.arr (JsonArr.cons (Json.num ("1"))
          (JsonArr.cons (Json.num ("2")) JsonArr.nil))), error := none } ∧
    (tryParseJSONTrace ("[1,2]")).2 = false :=
  C5_strict_parse_first_attempt ("[1,2]") _ rfl

/-- C6: the response extractor returns the absence signal (none) for a null
response, an absent or empty candidates array, or any missing nested
content/parts/text field, and returns a text only when it is present (and
non-empty) at the path first candidate → content → first part → text. -/
theorem C6_extractor_absence_safe :
    (getGeminiText none = none)
    ∧ (∀ r : GeminiResponse, r.candidates = none → getGeminiText (some r) = none)
    ∧ (∀ r : GeminiResponse, r.candidates = some [] → getGeminiText (some r) = none)
    ∧ (∀ (r : GeminiResponse) (cand : GeminiCandidate) (tl : List GeminiCandidate),
        r.candidates = some (cand :: tl) → cand.content = none →
        getGeminiText (some r) = none)
    ∧ (∀ (r : GeminiResponse) (cand : GeminiCandidate) (tl : List GeminiCandidate)
        (content : GeminiContent), r.candidates = some (cand :: tl) →
        cand.content = some content → content.parts = none →
        getGeminiText (some r) = none)
    ∧ (∀ (r : GeminiResponse) (cand : GeminiCandidate) (tl : List GeminiCandidate)
        (content : GeminiContent), r.candidates = some (cand :: tl) →
        cand.content = some content → content.parts = some [] →
        getGeminiText (some r) = none)
    ∧ (∀ (r : GeminiResponse) (cand : GeminiCandidate) (tl : List GeminiCandidate)
        (content : GeminiContent) (part : GeminiPart) (ptl : List GeminiPart),
        r.candidates = some (cand :: tl) → cand.content = some content →
        content.parts = some (part :: ptl) → part.text = none →
        getGeminiText (some r) = none)
    ∧ (∀ (resp : Option GeminiResponse) (t : String), getGeminiText resp = some t →
        ∃ (r : GeminiResponse) (cand : GeminiCandidate) (tl : List GeminiCandidate)
          (content : GeminiContent) (part : GeminiPart) (ptl : List GeminiPart),
          resp = some r ∧ r.candidates = some (cand :: tl) ∧
          cand.content = some content ∧ content.parts = some (part :: ptl) ∧
          part.text = some t ∧ t ≠ "") := by
  refine ⟨rfl, ?_, ?_, ?_, ?_, ?_, ?_, ?_⟩
  · intro r h; simp [getGeminiText, h]
  · intro r h; simp [getGeminiText, h]
  · intro r cand tl h hc; simp [getGeminiText, h, hc]
  · intro r cand tl content h hc hp; simp [getGeminiText, h, hc, hp]
  · intro r cand tl content h hc hp; simp [getGeminiText, h, hc, hp]
  · intro r cand tl content part ptl h hc hp ht; simp [getGeminiText, h, hc, hp, ht]
  · intro resp t h
    cases resp with
    | none => simp [getGeminiText] at h
    | some r =>
      cases hc : r.candidates with
      | none => simp [getGeminiText, hc] at h
      | some cands =>
        cases cands with
        | nil => simp [getGeminiText, hc] at h
        | cons cand tl =>
          cases hcc : cand.content with
          | none => simp [getGeminiText, hc, hcc] at h
          | some content =>
            cases hp : content.parts with
            | none => simp [getGeminiText, hc, hcc, hp] at h
            | some parts =>
              cases parts with
              | nil => simp [getGeminiText, hc, hcc, hp] at h
              | cons part ptl =>
                cases ht : part.text with
                | none => simp [getGeminiText, hc, hcc, hp, ht] at h
                | some t0 =>
                  by_cases h0 : t0 = ""
                  · simp [getGeminiText, hc, hcc, hp, ht, h0] at h
                  · simp only [getGeminiText, hc, hcc, hp, ht, List.head?, if_neg h0,
                      Option.some.injEq] at h
                    subst h
                    exact ⟨r, cand, tl, content, part, ptl, rfl, hc, hcc, hp, ht, h0⟩

theorem C6_extractor_absence_safe_witness :
    getGeminiText (some { candidates := some [] }) = none :=
  C6_extractor_absence_safe.2.2.1 { candidates := some [] } rfl

/-- C7: a request to generateInterviewQuestions with any of the four fields
absent or empty responds 400 "Missing required fields" with no provider
call (empty event trace). -/
theorem C7_missing_fields_400 (role experience topicsToFocus numberOfQuestions : Option Json)
    (provider : Except String (Option GeminiResponse))
    (h : role = none ∨ role = some (Json.str ("")) ∨
         experience = none ∨ experience = some (Json.str ("")) ∨
         topicsToFocus = none ∨ topicsToFocus = some (Json.str ("")) ∨
         numberOfQuestions = none ∨ numberOfQuestions = some (Json.str (""))) :
    generateInterviewQuestions role experience topicsToFocus numberOfQuestions provider =
      ⟨400, RespBody.message ("Missing required fields"), []⟩ := by
  have hfalse : (optTruthy role && optTruthy experience && optTruthy topicsToFocus &&
      optTruthy numberOfQuestions) = false := by
    rcases h with h|h|h|h|h|h|h|h <;> subst h <;>
      simp [optTruthy, Json.truthy]
  simp [generateInterviewQuestions, hfalse]

theorem C7_missing_fields_400_witness :
    generateInterviewQuestions none (some (Json.str ("2 years")))
      (some (Json.str ("arrays"))) (some (Json.num ("5"))) (Except.ok none) =
      ⟨400, RespBody.message ("Missing required fields"), []⟩ :=
  C7_missing_fields_400 none (some (Json.str ("2 years"))) (some (Json.str ("arrays")))
    (some (Json.num ("5"))) (Except.ok none) (Or.inl rfl)

/-- C8 (counterexample): all four fields present — numberOfQuestions is the
number 0 — yet the handler responds 400, because validation is by
JavaScript truthiness, not mere presence. -/
theorem C8_count_zero_rejected :
    generateInterviewQuestions (some (Json.str ("developer"))) (some (Json.str ("2 years")))
      (some (Json.str ("arrays"))) (some (Json.num ("0"))) (Except.ok none) =
      ⟨400, RespBody.message ("Missing required fields"), []⟩ := rfl

/-- C8 (amended): the fields are validated by JavaScript truthiness; when
all four are truthy — of any type — the handler proceeds past validation to
the provider call and never returns 400. -/
theorem C8_truthiness_validation (role experience topicsToFocus numberOfQuestions : Option Json)
    (provider : Except String (Option GeminiResponse))
    (h : (optTruthy role && optTruthy experience && optTruthy topicsToFocus &&
      optTruthy numberOfQuestions) = true) :
    (generateInterviewQuestions role experience topicsToFocus numberOfQuestions provider).events =
      [AIEvent.providerCall]
    ∧ (generateInterviewQuestions role experience topicsToFocus numberOfQuestions
        provider).status ≠ 400 := by
  simp only [generateInterviewQuestions, h, if_true]
  cases provider with
  | error e => simp
  | ok resp =>
    cases hg : getGeminiText resp with
    | none => simp [hg]
    | some text =>
      simp only [hg]
      cases hj : (tryParseJSON text).json with
      | none => simp
      | some v =>
        by_cases hv : v.truthy = true
        · simp [hv]
        · have hv' : v.truthy = false := by revert hv; cases v.truthy <;> simp
          simp [hv']

theorem C8_truthiness_validation_witness :
    (generateInterviewQuestions (some (Json.bool true)) (some (Json.num ("1")))
      (some (Json.arr JsonArr.nil)) (some (Json.num ("5"))) (Except.ok none)).events =
      [AIEvent.providerCall]
    ∧ (generateInterviewQuestions (some (Json.bool true)) (some (Json.num ("1")))
      (some (Json.arr JsonArr.nil)) (some (Json.num ("5"))) (Except.ok none)).status ≠ 400 :=
  C8_truthiness_validation (some (Json.bool true)) (some (Json.num ("1")))
    (some (Json.arr JsonArr.nil)) (some (Json.num ("5"))) (Except.ok none) rfl

/-- A provider response carrying the given text at the expected nested path
(used to instantiate theorems at concrete inputs). -/
def mkTextResp (t : String) : Option GeminiResponse :=
  some ⟨some [⟨some ⟨some [⟨some t⟩]⟩⟩]⟩

/-- C9: with both fields truthy and a questionId matching no stored
question, the database is never updated (no update event, state unchanged)
for any provider outcome, and whenever the provider yields extractable text
the handler responds 404 "Question not found". -/
theorem C9_not_found_no_update (qid q : Json) (db : List (Json × QuestionRec))
    (provider : Except String (Option GeminiResponse))
    (hqid : qid.truthy = true) (hq : q.truthy = true)
    (hfind : dbFind db qid = none) :
    ((generateConceptExplanation (some qid) (some q) provider db).2 = db
      ∧ AIEvent.dbUpdate ∉ (generateConceptExplanation (some qid) (some q) provider db).1.events)
    ∧ (∀ (resp : Option GeminiResponse) (text : String),
        provider = Except.ok resp → getGeminiText resp = some text →
        generateConceptExplanation (some qid) (some q) provider db =
          (⟨404, RespBody.message ("Question not found"),
            [AIEvent.providerCall, AIEvent.dbFindById]⟩, db)) := by
  constructor
  · simp only [generateConceptExplanation, hqid, hq, Bool.and_self, if_true]
    cases provider with
    | error e => simp
    | ok resp =>
      cases hg : getGeminiText resp with
      | none => simp [hg]
      | some text => simp [hg, hfind]
  · intro resp text hp hg
    subst hp
    simp [generateConceptExplanation, hqid, hq, hg, hfind]

theorem C9_not_found_no_update_witness :
    generateConceptExplanation (some (Json.str ("id9"))) (some (Json.str ("why")))
      (Except.ok (mkTextResp ("x"))) [] =
      (⟨404, RespBody.message ("Question not found"),
        [AIEvent.providerCall, AIEvent.dbFindById]⟩, []) :=
  (C9_not_found_no_update (Json.str ("id9")) (Json.str ("why")) []
    (Except.ok (mkTextResp ("x"))) rfl rfl rfl).2 _ ("x") rfl rfl

/-- C10: generateConceptExplanation calls the provider before the
question-existence lookup: the event trace is always a prefix of
provider-call, find, update; with truthy fields the provider call always
happens, and a thrown provider error or an empty extracted text yields
status 500 with the lookup never performed. -/
theorem C10_provider_before_lookup (questionId question : Option Json)
    (provider : Except String (Option GeminiResponse)) (db : List (Json × QuestionRec)) :
    ((generateConceptExplanation questionId question provider db).1.events = [] ∨
     (generateConceptExplanation questionId question provider db).1.events =
       [AIEvent.providerCall] ∨
     (generateConceptExplanation questionId question provider db).1.events =
       [AIEvent.providerCall, AIEvent.dbFindById] ∨
     (generateConceptExplanation questionId question provider db).1.events =
       [AIEvent.providerCall, AIEvent.dbFindById, AIEvent.dbUpdate])
    ∧ (∀ qid q, questionId = some qid → question = some q →
        qid.truthy = true → q.truthy = true →
        AIEvent.providerCall ∈ (generateConceptExplanation questionId question provider db).1.events
        ∧ (∀ e, provider = Except.error e →
            (generateConceptExplanation questionId question provider db).1.status = 500 ∧
            AIEvent.dbFindById ∉
              (generateConceptExplanation questionId question provider db).1.events)
        ∧ (∀ resp, provider = Except.ok resp → getGeminiText resp = none →
            (generateConceptExplanation questionId question provider db).1.status = 500 ∧
            AIEvent.dbFindById ∉
              (generateConceptExplanation questionId question provider db).1.events)) := by
  constructor
  · cases questionId with
    | none => simp [generateConceptExplanation]
    | some qid =>
      cases question with
      | none => simp [generateConceptExplanation]
      | some q =>
        by_cases hqq : (qid.truthy && q.truthy) = true
        · simp only [generateConceptExplanation, hqq, if_true]
          cases provider with
          | error e => simp
          | ok resp =>
            cases hg : getGeminiText resp with
            | none => simp [hg]
            | some text =>
              cases hf : dbFind db qid with
              | none => simp [hg, hf]
              | some existing => simp [hg, hf]
        · have hqq' : (qid.truthy && q.truthy) = false := by
            revert hqq; cases (qid.truthy && q.truthy) <;> simp
          simp [generateConceptExplanation, hqq']
  · intro qid q hqid hq htq htq2
    subst hqid; subst hq
    simp only [generateConceptExplanation, htq, htq2, Bool.and_self, if_true]
    refine ⟨?_, ?_, ?_⟩
    · cases provider with
      | error e => simp
      | ok resp =>
        cases hg : getGeminiText resp with
        | none => simp [hg]
        | some text =>
          cases hf : dbFind db qid with
          | none => simp [hg, hf]
          | some existing => simp [hg, hf]
    · intro e hp; subst hp; simp
    · intro resp hp hg; subst hp; simp [hg]

theorem C10_provider_before_lookup_witness :
    (generateConceptExplanation (some (Json.str ("a"))) (some (Json.str ("b")))
      (Except.ok none) []).1.status = 500 ∧
    AIEvent.dbFindById ∉
      (generateConceptExplanation (some (Json.str ("a"))) (some (Json.str ("b")))
        (Except.ok none) []).1.events :=
  ((C10_provider_before_lookup (some (Json.str ("a"))) (some (Json.str ("b")))
    (Except.ok none) []).2 _ _ rfl rfl rfl rfl).2.2 none rfl rfl

/-- C2: for an existing question record the handler stores a new answer
equal to the prior answer (or the empty string when absent/empty) followed
by the literal separator and the explanation; the prior answer content is
always a prefix of the stored answer, and the concrete examples of the
specification hold. -/
theorem C2_explanation_appended (qid q : Json) (db : List (Json × QuestionRec))
    (rec : QuestionRec) (resp : Option GeminiResponse) (text : String)
    (hqid : qid.truthy = true) (hq : q.truthy = true)
    (hg : getGeminiText resp = some text)
    (hfind : dbFind db qid = some rec) :
    (dbFind (generateConceptExplanation (some qid) (some q) (Except.ok resp) db).2 qid =
       some { rec with answer := some (appendExplanationAnswer rec.answer
         (deriveExplanation (tryParseJSON text).json text)) })
    ∧ (∀ (a expl : String), ∃ suffix, appendExplanationAnswer (some a) expl = a ++ suffix)
    ∧ appendExplanationAnswer (some ("A")) ("B") = "A\n\nExplanation:\nB"
    ∧ appendExplanationAnswer none ("B") = "\n\nExplanation:\nB"
    ∧ appendExplanationAnswer (some ("")) ("B") = "\n\nExplanation:\nB" := by
  refine ⟨?_, ?_, rfl, rfl, rfl⟩
  · simp only [generateConceptExplanation, hqid, hq, Bool.and_self, if_true, hg, hfind]
    exact (dbUpdateAnswer_found qid _ db rec hfind).2
  · intro a expl
    refine ⟨"\n\nExplanation:\n" ++ expl, ?_⟩
    by_cases ha : a = ""
    · subst ha; simp [appendExplanationAnswer, jsOrElseEmpty]
    · simp [appendExplanationAnswer, jsOrElseEmpty, ha, String.append_assoc]

theorem C2_explanation_appended_witness :
    dbFind (generateConceptExplanation (some (Json.str ("id1"))) (some (Json.str ("q1")))
      (Except.ok (mkTextResp ("\x7b\"explanation\":\"B\"\x7d")))
      [(Json.str ("id1"), { answer := some ("A") })]).2 (Json.str ("id1")) =
      some { answer := some ("A\n\nExplanation:\nB") } :=
  (C2_explanation_appended (Json.str ("id1")) (Json.str ("q1"))
    [(Json.str ("id1"), { answer := some ("A") })] { answer := some ("A") }
    (mkTextResp ("\x7b\"explanation\":\"B\"\x7d"))
    ("\x7b\"explanation\":\"B\"\x7d") rfl rfl rfl rfl).1

/-- C1 (counterexample): for extracted text that fails both parse attempts,
the derived explanation is the string "null" — `JSON.stringify(null)`,
since `typeof null` is "object" — and not the raw extracted text as the
claim states. -/
theorem C1_parse_failure_not_raw_text :
    (tryParseJSON ("not json at all")).json = none
    ∧ deriveExplanation (tryParseJSON ("not json at all")).json ("not json at all") = "null"
    ∧ ("null" : String) ≠ "not json at all" := by
  refine ⟨rfl, rfl, ?_⟩
  decide

/-- C1 (amended): the derived explanation follows the order (a) a truthy
`.explanation` field of the parsed JSON, coerced to a string; (b) the
stringified parsed value whenever `typeof` yields "object" — which covers
objects, arrays, a parsed `null`, and the `null` of a failed parse, so a
full parse failure yields the string "null"; (c) the raw extracted text
only when the parsed value is a string, number or boolean. -/
theorem C1_explanation_fallback (text : String) :
    (∀ fv, explanationField (tryParseJSON text).json = some fv → fv.truthy = true →
      deriveExplanation (tryParseJSON text).json text = jsToString fv)
    ∧ ((tryParseJSON text).json = none →
      deriveExplanation (tryParseJSON text).json text = "null")
    ∧ ((tryParseJSON text).json = some Json.null →
      deriveExplanation (tryParseJSON text).json text = "null")
    ∧ (∀ xs, (tryParseJSON text).json = some (Json.arr xs) →
      deriveExplanation (tryParseJSON text).json text = stringifyJson (Json.arr xs))
    ∧ (∀ fs, (tryParseJSON text).json = some (Json.obj fs) →
        (getField fs ("explanation") = none ∨
          (∃ fv, getField fs ("explanation") = some fv ∧ fv.truthy = false)) →
      deriveExplanation (tryParseJSON text).json text = stringifyJson (Json.obj fs))
    ∧ (∀ s, (tryParseJSON text).json = some (Json.str s) →
      deriveExplanation (tryParseJSON text).json text = text)
    ∧ (∀ lexeme, (tryParseJSON text).json = some (Json.num lexeme) →
      deriveExplanation (tryParseJSON text).json text = text)
    ∧ (∀ b, (tryParseJSON text).json = some (Json.bool b) →
      deriveExplanation (tryParseJSON text).json text = text) := by
  refine ⟨?_, ?_, ?_, ?_, ?_, ?_, ?_, ?_⟩
  · intro fv hf ht
    simp [deriveExplanation, hf, ht]
  · intro h
    simp [deriveExplanation, h, explanationField, typeofObject, jsonStringifyOpt]
  · intro h
    simp [deriveExplanation, h, explanationField, typeofObject, jsonStringifyOpt,
      stringifyJson]
  · intro xs h
    simp [deriveExplanation, h, explanationField, typeofObject, jsonStringifyOpt]
  · intro fs h hfield
    rcases hfield with hnone | ⟨fv, hsome, hfalse⟩
    · simp [deriveExplanation, h, explanationField, hnone, typeofObject, jsonStringifyOpt]
    · simp [deriveExplanation, h, explanationField, hsome, hfalse, typeofObject,
        jsonStringifyOpt]
  · intro s h
    simp [deriveExplanation, h, explanationField, typeofObject]
  · intro lexeme h
    simp [deriveExplanation, h, explanationField, typeofObject]
  · intro b h
    simp [deriveExplanation, h, explanationField, typeofObject]

theorem C1_explanation_fallback_witness :
    deriveExplanation (tryParseJSON ("\x7b\"explanation\":\"B\"\x7d")).json
      ("\x7b\"explanation\":\"B\"\x7d") = "B"
    ∧ deriveExplanation (tryParseJSON ("[1,2]")).json ("[1,2]") = "[1,2]" := by
  constructor
  · exact (C1_explanation_fallback ("\x7b\"explanation\":\"B\"\x7d")).1 (Json.str ("B")) rfl rfl
  · exact (C1_explanation_fallback ("[1,2]")).2.2.2.1
      (JsonArr.cons (Json.num ("1")) (JsonArr.cons (Json.num ("2")) JsonArr.nil)) rfl

lemma isPre_self_append (l r : List Char) : l.isPrefixOf (l ++ r) = true := by
  simp [ List.isPrefixOf_iff_prefix]

lemma fence3Rev : ("```".toList).reverse = "```".toList := by decide

lemma cleanFenced_fence (w w2 body : String)
    (hw : ∀ c ∈ w.toList, isJsSpace c = true)
    (hw2 : ∀ c ∈ w2.toList, isJsSpace c = true)
    (hhead : ∃ c0 tl, body.toList = c0 :: tl ∧ isJsSpace c0 = false)
    (hlast : ∃ c1 tl, body.toList.reverse = c1 :: tl ∧ isJsSpace c1 = false) :
    cleanFenced ("```json" ++ w ++ body ++ w2 ++ "```") = body := by
  obtain ⟨c0, tl0, hb0, hc0⟩ := hhead
  obtain ⟨c1, tl1, hb1, hc1⟩ := hlast
  have hdata : ("```json" ++ w ++ body ++ w2 ++ "```").toList
      = "```json".toList ++ (w.toList ++ (body.toList ++ (w2.toList ++ "```".toList))) := by
    simp [String.data_append, String.toList, List.append_assoc]
  have h1 : stripLead ("```json".toList ++ (w.toList ++ (body.toList ++ (w2.toList ++ "```".toList))))
      = body.toList ++ (w2.toList ++ "```".toList) := by
    unfold stripLead
    rw [isPre_self_append]
    simp only [if_true]
    rw [show (7 : Nat) = ("```json".toList).length from rfl, List.drop_left]
    rw [dropWhile_append_all w.toList _ hw]
    have hX : (body.toList ++ (w2.toList ++ "```".toList))
        = c0 :: (tl0 ++ (w2.toList ++ "```".toList)) := by rw [hb0]; rfl
    rw [hX, dropWhile_cons_false _ hc0, ← hX]
  have h2 : stripTrail (body.toList ++ (w2.toList ++ "```".toList))
      = body.toList ++ w2.toList := by
    unfold stripTrail
    have hrev : (body.toList ++ (w2.toList ++ "```".toList)).reverse
        = "```".toList ++ (w2.toList.reverse ++ body.toList.reverse) := by
      simp [List.reverse_append, fence3Rev, List.append_assoc]
    rw [List.isSuffixOf, fence3Rev, hrev, isPre_self_append]
    simp only [if_true]
    rw [show (3 : Nat) = ("```".toList).length from rfl, List.drop_left]
    simp [List.reverse_append, List.reverse_reverse]
  have h3 : trimBoth (body.toList ++ w2.toList) = body.toList := by
    unfold trimBoth
    have hX : (body.toList ++ w2.toList) = c0 :: (tl0 ++ w2.toList) := by rw [hb0]; rfl
    rw [hX, dropWhile_cons_false _ hc0, ← hX]
    have hrev : (body.toList ++ w2.toList).reverse
        = w2.toList.reverse ++ body.toList.reverse := by simp
    rw [hrev, dropWhile_append_all _ _ (fun c hc => hw2 c (List.mem_reverse.mp hc)),
      hb1, dropWhile_cons_false _ hc1, ← hb1, List.reverse_reverse]
  unfold cleanFenced
  rw [hdata, h1, h2, h3]
  cases body
  rfl

/-- C3 (counterexample): the leading-fence removal requires the literal
`json` language tag — the same payload behind a bare fence (no tag) is not
recovered, while the `json`-tagged example of the claim is. -/
theorem C3_bare_fence_not_recovered :
    (tryParseJSON ("```\n\x7b\"a\":1\x7d\n```")).json = none
    ∧ (tryParseJSON ("```json\n\x7b\"a\":1\x7d\n```")).json =
        some (Json.obj (JsonObj.cons ("a") (Json.num ("1")) JsonObj.nil)) := ⟨rfl, rfl⟩

/-- C3 (amended): for text that fails strict parsing and is the payload
wrapped in a leading fence tagged exactly `json` (with regex whitespace
after the tag) and a trailing fence at the very end, the fallback strips
the fences, trims, reparses, and returns the payload's value — in
particular the claim's `json`-tagged example yields the object a ↦ 1. -/
theorem C3_fenced_recovery (w w2 body : String) (v : Json)
    (hw : w.toList.all isJsSpace = true)
    (hw2 : w2.toList.all isJsSpace = true)
    (hhead : ∃ c0 tl, body.toList = c0 :: tl ∧ isJsSpace c0 = false)
    (hlast : ∃ c1 tl, body.toList.reverse = c1 :: tl ∧ isJsSpace c1 = false)
    (hok : parseJson body = Except.ok v)
    (hfail : exceptOk (parseJson ("```json" ++ w ++ body ++ w2 ++ "```")) = false) :
    tryParseJSON ("```json" ++ w ++ body ++ w2 ++ "```") =
      { json := some v, error := none } := by
  have hw' : ∀ c ∈ w.toList, isJsSpace c = true := by
    simpa [List.all_eq_true] using hw
  have hw2' : ∀ c ∈ w2.toList, isJsSpace c = true := by
    simpa [List.all_eq_true] using hw2
  have hclean := cleanFenced_fence w w2 body hw' hw2' hhead hlast
  cases hp : parseJson ("```json" ++ w ++ body ++ w2 ++ "```") with
  | ok v0 => rw [hp] at hfail; simp [exceptOk] at hfail
  | error e =>
    unfold tryParseJSON
    rw [hp, hclean, hok]

theorem C3_fenced_recovery_witness :
    tryParseJSON ("```json\n\x7b\"a\":1\x7d\n```") =
      { json := some (Json.obj (JsonObj.cons ("a") (Json.num ("1")) JsonObj.nil)),
        error := none } :=
  C3_fenced_recovery ("\n") ("\n") ("\x7b\"a\":1\x7d") _ rfl rfl
    ⟨_, _, rfl, rfl⟩ ⟨_, _, rfl, rfl⟩ rfl rfl

/-- C4: when both parse attempts fail, JsonRecovery returns no value and
the error message of the second (fence-stripped) attempt, and the
generate-questions handler responds 500 carrying the raw text and that
error. -/
theorem C4_double_failure (text : String) (e1 e2 : String)
    (h1 : parseJson text = Except.error e1)
    (h2 : parseJson (cleanFenced text) = Except.error e2) :
    tryParseJSON text = { json := none, error := some e2 }
    ∧ (∀ (role experience topics num : Option Json) (resp : Option GeminiResponse),
        (optTruthy role && optTruthy experience && optTruthy topics &&
          optTruthy num) = true →
        getGeminiText resp = some text →
        generateInterviewQuestions role experience topics num (Except.ok resp) =
          ⟨500, RespBody.invalidJson ("Gemini returned invalid JSON") text (some e2),
            [AIEvent.providerCall]⟩) := by
  have htp : tryParseJSON text = { json := none, error := some e2 } := by
    simp [tryParseJSON, h1, h2]
  refine ⟨htp, ?_⟩
  intro role experience topics num resp hv hg
  simp [generateInterviewQuestions, hv, hg, htp]

theorem C4_double_failure_witness :
    tryParseJSON ("```json\nnot json\n```") =
      { json := none, error := some ("Unexpected token n") } ∧
    generateInterviewQuestions (some (Json.str ("r"))) (some (Json.str ("e")))
      (some (Json.str ("t"))) (some (Json.num ("3")))
      (Except.ok (mkTextResp ("```json\nnot json\n```"))) =
      ⟨500, RespBody.invalidJson ("Gemini returned invalid JSON")
        ("```json\nnot json\n```") (some ("Unexpected token n")),
        [AIEvent.providerCall]⟩ := by
  have h := C4_double_failure ("```json\nnot json\n```") _ _ rfl rfl
  exact ⟨h.1, h.2 _ _ _ _ _ rfl rfl⟩
